import Mathlib

/-!
Shallow embedding of the transactional concurrency-control layer of
`crates/collab/src/db.rs`: the error taxonomy consumed by the retry
controller, the serialization-failure classifier, the retry/backoff
policy, the transaction orchestrators (`transaction`, `weak_transaction`,
`room_transaction`, `project_transaction`, `optional_room_transaction`)
as trace-producing functions over an environment of oracles for the
external store, and the migration runner `migrate`.
-/

namespace Db

/-- Embeds `sea_orm::RuntimeErr` as far as `is_serialization_error`
inspects it: the `SqlxError` variant carries the result of
`error.as_database_error().and_then(|error| error.code())`, i.e. the
driver-level SQLSTATE code when the underlying sqlx error is a database
error that has one, and `none` otherwise. Other runtime errors are
collapsed into `other`. -/
inductive RuntimeErr where
  | sqlxError (code : Option String)
  | other (msg : String)
deriving DecidableEq, Repr

/-- Embeds `sea_orm::DbErr`: the `Exec` and `Query` variants matched by
`is_serialization_error`, plus a representative for every other variant
(connection errors, conversion errors, ...). -/
inductive DbErr where
  | exec (e : RuntimeErr)
  | query (e : RuntimeErr)
  | conn (msg : String)
  | custom (msg : String)
deriving DecidableEq, Repr

/-- Embeds the collab crate's `Error` as far as `db.rs` constructs and
inspects it: `Database` wraps a `DbErr`; `internal` covers errors built
with `anyhow!` (such as the transaction-still-in-use error); `other`
covers the remaining variants of the crate's error enum. -/
inductive Error where
  | database (e : DbErr)
  | internal (msg : String)
  | other (msg : String)
deriving DecidableEq, Repr

/-- `SERIALIZATION_FAILURE_CODE` from `is_serialization_error`. -/
def SERIALIZATION_FAILURE_CODE : String := "40001"

/-- Embeds `fn is_serialization_error(error: &Error) -> bool`: true
exactly for `Error::Database(DbErr::Exec(RuntimeErr::SqlxError(e)) |
DbErr::Query(RuntimeErr::SqlxError(e)))` whose driver-level code is
`Some("40001")`. -/
def is_serialization_error : Error → Bool
  | .database (.exec (.sqlxError code)) => code == some SERIALIZATION_FAILURE_CODE
  | .database (.query (.sqlxError code)) => code == some SERIALIZATION_FAILURE_CODE
  | _ => false

/-- The `SLEEPS` table of `retry_on_serialization_error`; the source
stores `f32` millisecond values, all of them integers, embedded here as
rationals. -/
def SLEEPS : List ℚ := [10, 20, 40, 80, 160, 320, 640, 1280, 2560, 5120]

/-- The decision part of `retry_on_serialization_error(error,
prev_attempt_count)`: retry exactly when the error is a serialization
error and `prev_attempt_count < SLEEPS.len()`. (The sleeping side effect
is recorded separately, as a trace event by the orchestrators and as
`randomized_delay` for the delay value.) -/
def retry_on_serialization_error (error : Error) (prev_attempt_count : ℕ) : Bool :=
  is_serialization_error error && prev_attempt_count < SLEEPS.length

/-- The delay computed by `retry_on_serialization_error` before a retry:
`base_delay * r` where `base_delay = SLEEPS[prev_attempt_count]` and `r`
is the multiplier drawn by `self.rng.lock().await.gen_range(0.5..=2.0)`
(the truncation of the product to whole milliseconds by
`Duration::from_millis(randomized_delay as u64)` is not modelled). -/
def randomized_delay (r : ℚ) (prev_attempt_count : ℕ) : ℚ :=
  (SLEEPS.getD prev_attempt_count 0) * r

/-- Modelled from the spec: the spec's words for the backoff base-delay
sequence, "`base_delay` doubles each step starting at 10ms (10, 20, 40,
… 2560ms)". Used only to compare the spec's table with the source's
`SLEEPS`. -/
def spec_base_delays : List ℚ := [10, 20, 40, 80, 160, 320, 640, 1280, 2560]

/-! ### The rng seed (claim C10)

`Database::new` initializes `rng: Mutex::new(StdRng::seed_from_u64(0))`.
Only the rng-relevant state of `Database` is embedded: the seed it was
constructed with and the number of multiplier draws made so far. The
`StdRng` algorithm itself lives in the external `rand` crate; it is
modelled as an arbitrary deterministic function `gen` of the seed and
the draw index, which is exactly the contract of `seed_from_u64`. -/

/-- The rng-relevant state of `Database`. -/
structure Database where
  rngSeed : ℕ
  rngDraws : ℕ
deriving DecidableEq, Repr

/-- Embeds the rng initialization in `Database::new`:
`StdRng::seed_from_u64(0)` with no draws made yet. -/
def Database.new : Database :=
  { rngSeed := 0, rngDraws := 0 }

/-- Drawing one backoff multiplier (`gen_range(0.5..=2.0)`) from the
database's rng, for a given deterministic generator `gen`. -/
def nextMultiplier (gen : ℕ → ℕ → ℚ) (db : Database) : ℚ × Database :=
  (gen db.rngSeed db.rngDraws, { db with rngDraws := db.rngDraws + 1 })

/-- The sequence of multipliers a database instance will draw: the `n`-th
future draw, for a given deterministic generator `gen`. -/
def multiplierSeq (gen : ℕ → ℕ → ℚ) (db : Database) (n : ℕ) : ℚ :=
  gen db.rngSeed (db.rngDraws + n)

/-! ### Transaction orchestrators as trace-producing functions

Each orchestrator is embedded as a function of an *environment* of
oracles describing, per attempt index, what the external store and the
caller-supplied unit of work `f` do, and it produces both the returned
`Result` and a trace of events, one tagged event per operation, so that
ordering claims (lock before/after `f`, rollback before retry, ...) are
statements about the trace. -/

/-- The isolation level passed to `begin_with_config`. -/
inductive Isolation where
  | serializable
  | readCommitted
deriving DecidableEq, Repr

/-- The key of an entity lock: an entry of the `rooms` or `projects`
`DashMap` of `Database`. -/
inductive LockKey where
  | room (id : ℕ)
  | project (id : ℕ)
deriving DecidableEq, Repr

/-- One observable operation of an orchestrator, tagged with the attempt
index `i` (the source's loop counter) it happened in:

* `beginTx iso i` — `pool.begin_with_config(Some(iso), None)` succeeded;
* `runF i` — the unit of work `f` was invoked;
* `acquireLock k i` — `lock.lock_owned().await` returned for entity `k`;
* `commitAttempt i` — `tx.commit()` was invoked;
* `commitOk i` — that commit returned `Ok`;
* `rollback i` — `tx.rollback()` was invoked;
* `sleep i` — `retry_on_serialization_error` slept before retrying. -/
inductive Event where
  | beginTx (iso : Isolation) (i : ℕ)
  | runF (i : ℕ)
  | acquireLock (k : LockKey) (i : ℕ)
  | commitAttempt (i : ℕ)
  | commitOk (i : ℕ)
  | rollback (i : ℕ)
  | sleep (i : ℕ)
deriving DecidableEq, Repr

/-- Index of the first occurrence of `e` in a trace (length of the trace
when absent). -/
def idxOf (e : Event) : List Event → ℕ
  | [] => 0
  | x :: xs => if x = e then 0 else idxOf e xs + 1

/-- Count of `runF` events in a trace: how many times the unit of work
was invoked. -/
def countRunF (evs : List Event) : ℕ :=
  evs.countP (fun ev => match ev with | .runF _ => true | _ => false)

/-- The environment of one orchestrator call: for each attempt index,
the outcome of opening the transaction, whether the unit of work `f`
retains its `TransactionHandle` beyond its return (leaving the
`Arc`'s strong count above one), the result `f` returns, and the
outcomes of `tx.commit()` and `tx.rollback()`. -/
structure Env (T : Type) where
  beginResult : ℕ → Except Error Unit
  fRetains : ℕ → Bool
  fResult : ℕ → Except Error T
  commitResult : ℕ → Except Error Unit
  rollbackResult : ℕ → Except Error Unit

/-- The error built by `with_transaction` / `with_weak_transaction` when
`Arc::get_mut` fails because `f` retained the handle:
`anyhow!("couldn't complete transaction because it's still in use")`. -/
def txStillInUse : Error :=
  .internal "couldn't complete transaction because it's still in use"

/-- Embeds `with_transaction` (and, with `iso := .readCommitted`,
`with_weak_transaction`): begin at the given isolation level, run `f`
once, then recover exclusive ownership of the transaction, failing with
`txStillInUse` if `f` kept a clone of the handle alive. Returns the
nested result (`Except Error` for the phase itself, carrying `f`'s own
`Except Error T` result on success) together with the trace of the
attempt so far. -/
def with_transaction (env : Env T) (iso : Isolation) (i : ℕ) :
    Except Error (Except Error T) × List Event :=
  match env.beginResult i with
  | .error e => (.error e, [])
  | .ok _ =>
    let evs := [Event.beginTx iso i, Event.runF i]
    if env.fRetains i then
      (.error txStillInUse, evs)
    else
      (.ok (env.fResult i), evs)

/-- Outcome of one iteration of an orchestrator's `loop`: `done r` for
the iterations that `return`, `retry e` for the ones that fall through
to `i += 1` after `retry_on_serialization_error` returned true. -/
inductive AttemptOutcome (R : Type) where
  | done (r : Except Error R)
  | retry (e : Error)

/-- One iteration of `transaction`'s `loop`: run `with_transaction`; on
`Ok(result)` commit, returning the result on success and consulting
`retry_on_serialization_error` on commit failure; on `Err(error)` roll
back (propagating a rollback failure) and consult
`retry_on_serialization_error`. -/
def transaction_attempt (env : Env T) (i : ℕ) :
    AttemptOutcome T × List Event :=
  match with_transaction env .serializable i with
  | (.error e, evs) => (.done (.error e), evs)
  | (.ok result, evs) =>
    match result with
    | .ok result =>
      match env.commitResult i with
      | .ok _ => (.done (.ok result), evs ++ [.commitAttempt i, .commitOk i])
      | .error error =>
        if retry_on_serialization_error error i then
          (.retry error, evs ++ [.commitAttempt i, .sleep i])
        else
          (.done (.error error), evs ++ [.commitAttempt i])
    | .error error =>
      match env.rollbackResult i with
      | .error e2 => (.done (.error e2), evs ++ [.rollback i])
      | .ok _ =>
        if retry_on_serialization_error error i then
          (.retry error, evs ++ [.rollback i, .sleep i])
        else
          (.done (.error error), evs ++ [.rollback i])

theorem transaction_attempt_retry_lt (env : Env T) (i : ℕ) (e : Error)
    (evs : List Event) (h : transaction_attempt env i = (.retry e, evs)) :
    i < SLEEPS.length := by
  unfold transaction_attempt with_transaction at h
  rcases hb : env.beginResult i with e' | u <;> rw [hb] at h <;> simp at h
  rcases hr : env.fRetains i with _ | _ <;> rw [hr] at h <;> simp at h
  rcases hf : env.fResult i with e' | x <;> rw [hf] at h <;> simp at h
  · rcases hrb : env.rollbackResult i with e2 | u2 <;> rw [hrb] at h <;> simp at h
    rcases hret : retry_on_serialization_error e' i with _ | _ <;>
      rw [hret] at h <;> simp at h
    have := hret
    unfold retry_on_serialization_error at this
    simp at this
    exact this.2
  · rcases hc : env.commitResult i with e' | u2 <;> rw [hc] at h <;> simp at h
    rcases hret : retry_on_serialization_error e' i with _ | _ <;>
      rw [hret] at h <;> simp at h
    have := hret
    unfold retry_on_serialization_error at this
    simp at this
    exact this.2

/-- The `loop` of `transaction` starting at counter value `i`: run one
attempt; `return` on `done`, otherwise increment `i` and loop. The trace
is the concatenation of the attempts' traces. -/
def transactionGo (env : Env T) (i : ℕ) : Except Error T × List Event :=
  match h : transaction_attempt env i with
  | (.done r, evs) => (r, evs)
  | (.retry e, evs) =>
    have : i < SLEEPS.length := transaction_attempt_retry_lt env i e evs h
    let p := transactionGo env (i + 1)
    (p.1, evs ++ p.2)
termination_by SLEEPS.length - i
decreasing_by omega

/-- Embeds `Database::transaction`: the retry loop started with `i = 0`.
(`self.run(body)` is the identity outside tests.) -/
def transaction (env : Env T) : Except Error T × List Event :=
  transactionGo env 0

/-- Embeds `Database::weak_transaction`: a single attempt through
`with_weak_transaction` (Read-Committed isolation), committing on `Ok`,
rolling back and surfacing the error on `Err`, with no retry loop. -/
def weak_transaction (env : Env T) : Except Error T × List Event :=
  match with_transaction env .readCommitted 0 with
  | (.error e, evs) => (.error e, evs)
  | (.ok result, evs) =>
    match result with
    | .ok result =>
      match env.commitResult 0 with
      | .ok _ => (.ok result, evs ++ [.commitAttempt 0, .commitOk 0])
      | .error error => (.error error, evs ++ [.commitAttempt 0])
    | .error error =>
      match env.rollbackResult 0 with
      | .error e2 => (.error e2, evs ++ [.rollback 0])
      | .ok _ => (.error error, evs ++ [.rollback 0])

/-- Embeds `TransactionGuard<T>`: the committed result together with the
still-held entity lock (`_guard: OwnedMutexGuard<()>`), recorded here by
its key. The lock is held for as long as the guard lives;
`into_inner` consumes the guard (dropping, hence releasing, the lock)
and yields the data. -/
structure TransactionGuard (T : Type) where
  data : T
  heldLock : LockKey
deriving DecidableEq, Repr

/-- Embeds `TransactionGuard::into_inner`. -/
def TransactionGuard.into_inner (g : TransactionGuard T) : T :=
  g.data

/-- One iteration of `room_transaction`'s `loop`: acquire the room lock
*first*, then run `with_transaction`; on `Ok(data)` commit and return a
guard holding the lock; on errors, proceed as in `transaction_attempt`. -/
def room_attempt (env : Env T) (room_id : ℕ) (i : ℕ) :
    AttemptOutcome (TransactionGuard T) × List Event :=
  let evs0 := [Event.acquireLock (.room room_id) i]
  match with_transaction env .serializable i with
  | (.error e, evs) => (.done (.error e), evs0 ++ evs)
  | (.ok result, evs) =>
    let evs := evs0 ++ evs
    match result with
    | .ok data =>
      match env.commitResult i with
      | .ok _ =>
        (.done (.ok { data := data, heldLock := .room room_id }),
          evs ++ [.commitAttempt i, .commitOk i])
      | .error error =>
        if retry_on_serialization_error error i then
          (.retry error, evs ++ [.commitAttempt i, .sleep i])
        else
          (.done (.error error), evs ++ [.commitAttempt i])
    | .error error =>
      match env.rollbackResult i with
      | .error e2 => (.done (.error e2), evs ++ [.rollback i])
      | .ok _ =>
        if retry_on_serialization_error error i then
          (.retry error, evs ++ [.rollback i, .sleep i])
        else
          (.done (.error error), evs ++ [.rollback i])

theorem room_attempt_retry_lt (env : Env T) (room_id i : ℕ) (e : Error)
    (evs : List Event) (h : room_attempt env room_id i = (.retry e, evs)) :
    i < SLEEPS.length := by
  unfold room_attempt with_transaction at h
  rcases hb : env.beginResult i with e' | u <;> rw [hb] at h <;> simp at h
  rcases hr : env.fRetains i with _ | _ <;> rw [hr] at h <;> simp at h
  rcases hf : env.fResult i with e' | x <;> rw [hf] at h <;> simp at h
  · rcases hrb : env.rollbackResult i with e2 | u2 <;> rw [hrb] at h <;> simp at h
    rcases hret : retry_on_serialization_error e' i with _ | _ <;>
      rw [hret] at h <;> simp at h
    have := hret
    unfold retry_on_serialization_error at this
    simp at this
    exact this.2
  · rcases hc : env.commitResult i with e' | u2 <;> rw [hc] at h <;> simp at h
    rcases hret : retry_on_serialization_error e' i with _ | _ <;>
      rw [hret] at h <;> simp at h
    have := hret
    unfold retry_on_serialization_error at this
    simp at this
    exact this.2

/-- The `loop` of `room_transaction` starting at counter value `i`. On a
retry iteration the lock guard is dropped (released) before looping, and
the next attempt re-acquires it. -/
def room_transactionGo (env : Env T) (room_id : ℕ) (i : ℕ) :
    Except Error (TransactionGuard T) × List Event :=
  match h : room_attempt env room_id i with
  | (.done r, evs) => (r, evs)
  | (.retry e, evs) =>
    have : i < SLEEPS.length := room_attempt_retry_lt env room_id i e evs h
    let p := room_transactionGo env room_id (i + 1)
    (p.1, evs ++ p.2)
termination_by SLEEPS.length - i
decreasing_by omega

/-- Embeds `Database::room_transaction`. -/
def room_transaction (env : Env T) (room_id : ℕ) :
    Except Error (TransactionGuard T) × List Event :=
  room_transactionGo env room_id 0

/-- The lock chosen by `project_transaction`: the owning room's lock if
the pre-lookup `room_id_for_project` found one, the project's own lock
otherwise. -/
def projectLock (project_id : ℕ) (room_id : Option ℕ) : LockKey :=
  match room_id with
  | some room_id => .room room_id
  | none => .project project_id

/-- One iteration of `project_transaction`'s `loop`: identical to
`room_attempt` except that the lock acquired (again before
`with_transaction`) is `projectLock project_id room_id`, where `room_id`
is the result of the pre-loop lookup `room_id_for_project(project_id)`
(a query defined outside this module, so passed in as a parameter). -/
def project_attempt (env : Env T) (project_id : ℕ) (room_id : Option ℕ) (i : ℕ) :
    AttemptOutcome (TransactionGuard T) × List Event :=
  let evs0 := [Event.acquireLock (projectLock project_id room_id) i]
  match with_transaction env .serializable i with
  | (.error e, evs) => (.done (.error e), evs0 ++ evs)
  | (.ok result, evs) =>
    let evs := evs0 ++ evs
    match result with
    | .ok data =>
      match env.commitResult i with
      | .ok _ =>
        (.done (.ok { data := data, heldLock := projectLock project_id room_id }),
          evs ++ [.commitAttempt i, .commitOk i])
      | .error error =>
        if retry_on_serialization_error error i then
          (.retry error, evs ++ [.commitAttempt i, .sleep i])
        else
          (.done (.error error), evs ++ [.commitAttempt i])
    | .error error =>
      match env.rollbackResult i with
      | .error e2 => (.done (.error e2), evs ++ [.rollback i])
      | .ok _ =>
        if retry_on_serialization_error error i then
          (.retry error, evs ++ [.rollback i, .sleep i])
        else
          (.done (.error error), evs ++ [.rollback i])

theorem project_attempt_retry_lt (env : Env T) (project_id : ℕ)
    (room_id : Option ℕ) (i : ℕ) (e : Error) (evs : List Event)
    (h : project_attempt env project_id room_id i = (.retry e, evs)) :
    i < SLEEPS.length := by
  unfold project_attempt with_transaction at h
  rcases hb : env.beginResult i with e' | u <;> rw [hb] at h <;> simp at h
  rcases hr : env.fRetains i with _ | _ <;> rw [hr] at h <;> simp at h
  rcases hf : env.fResult i with e' | x <;> rw [hf] at h <;> simp at h
  · rcases hrb : env.rollbackResult i with e2 | u2 <;> rw [hrb] at h <;> simp at h
    rcases hret : retry_on_serialization_error e' i with _ | _ <;>
      rw [hret] at h <;> simp at h
    have := hret
    unfold retry_on_serialization_error at this
    simp at this
    exact this.2
  · rcases hc : env.commitResult i with e' | u2 <;> rw [hc] at h <;> simp at h
    rcases hret : retry_on_serialization_error e' i with _ | _ <;>
      rw [hret] at h <;> simp at h
    have := hret
    unfold retry_on_serialization_error at this
    simp at this
    exact this.2

/-- The `loop` of `project_transaction`. -/
def project_transactionGo (env : Env T) (project_id : ℕ) (room_id : Option ℕ)
    (i : ℕ) : Except Error (TransactionGuard T) × List Event :=
  match h : project_attempt env project_id room_id i with
  | (.done r, evs) => (r, evs)
  | (.retry e, evs) =>
    have : i < SLEEPS.length := project_attempt_retry_lt env project_id room_id i e evs h
    let p := project_transactionGo env project_id room_id (i + 1)
    (p.1, evs ++ p.2)
termination_by SLEEPS.length - i
decreasing_by omega

/-- Embeds `Database::project_transaction`, with the result of the
pre-loop `room_id_for_project` lookup passed as `room_id`. -/
def project_transaction (env : Env T) (project_id : ℕ) (room_id : Option ℕ) :
    Except Error (TransactionGuard T) × List Event :=
  project_transactionGo env project_id room_id 0

/-- One iteration of `optional_room_transaction`'s `loop`: run
`with_transaction` *first*; if `f` yielded `Some((room_id, data))`,
acquire that room's lock and then commit, returning a guard holding the
lock; if `f` yielded `None`, commit unscoped with no lock; on errors,
proceed as in `transaction_attempt`. -/
def optional_room_attempt (env : Env (Option (ℕ × T))) (i : ℕ) :
    AttemptOutcome (Option (TransactionGuard T)) × List Event :=
  match with_transaction env .serializable i with
  | (.error e, evs) => (.done (.error e), evs)
  | (.ok result, evs) =>
    match result with
    | .ok (some (room_id, data)) =>
      let evs := evs ++ [Event.acquireLock (.room room_id) i]
      match env.commitResult i with
      | .ok _ =>
        (.done (.ok (some { data := data, heldLock := .room room_id })),
          evs ++ [.commitAttempt i, .commitOk i])
      | .error error =>
        if retry_on_serialization_error error i then
          (.retry error, evs ++ [.commitAttempt i, .sleep i])
        else
          (.done (.error error), evs ++ [.commitAttempt i])
    | .ok none =>
      match env.commitResult i with
      | .ok _ => (.done (.ok none), evs ++ [.commitAttempt i, .commitOk i])
      | .error error =>
        if retry_on_serialization_error error i then
          (.retry error, evs ++ [.commitAttempt i, .sleep i])
        else
          (.done (.error error), evs ++ [.commitAttempt i])
    | .error error =>
      match env.rollbackResult i with
      | .error e2 => (.done (.error e2), evs ++ [.rollback i])
      | .ok _ =>
        if retry_on_serialization_error error i then
          (.retry error, evs ++ [.rollback i, .sleep i])
        else
          (.done (.error error), evs ++ [.rollback i])

theorem optional_room_attempt_retry_lt (env : Env (Option (ℕ × T))) (i : ℕ)
    (e : Error) (evs : List Event)
    (h : optional_room_attempt env i = (.retry e, evs)) :
    i < SLEEPS.length := by
  unfold optional_room_attempt with_transaction at h
  rcases hb : env.beginResult i with e' | u <;> rw [hb] at h <;> simp at h
  rcases hr : env.fRetains i with _ | _ <;> rw [hr] at h <;> simp at h
  rcases hf : env.fResult i with e' | x <;> rw [hf] at h
  · simp at h
    rcases hrb : env.rollbackResult i with e2 | u2 <;> rw [hrb] at h <;> simp at h
    rcases hret : retry_on_serialization_error e' i with _ | _ <;>
      rw [hret] at h <;> simp at h
    have := hret
    unfold retry_on_serialization_error at this
    simp at this
    exact this.2
  · rcases x with _ | ⟨room_id, data⟩ <;> simp at h <;>
      rcases hc : env.commitResult i with e' | u2 <;> rw [hc] at h <;> simp at h <;>
      rcases hret : retry_on_serialization_error e' i with _ | _ <;>
        rw [hret] at h <;> simp at h <;>
      · have := hret
        unfold retry_on_serialization_error at this
        simp at this
        exact this.2

/-- The `loop` of `optional_room_transaction`. -/
def optional_room_transactionGo (env : Env (Option (ℕ × T))) (i : ℕ) :
    Except Error (Option (TransactionGuard T)) × List Event :=
  match h : optional_room_attempt env i with
  | (.done r, evs) => (r, evs)
  | (.retry e, evs) =>
    have : i < SLEEPS.length := optional_room_attempt_retry_lt env i e evs h
    let p := optional_room_transactionGo env (i + 1)
    (p.1, evs ++ p.2)
termination_by SLEEPS.length - i
decreasing_by omega

/-- Embeds `Database::optional_room_transaction`. -/
def optional_room_transaction (env : Env (Option (ℕ × T))) :
    Except Error (Option (TransactionGuard T)) × List Event :=
  optional_room_transactionGo env 0

/-! ### Migrations (claim C9) -/

/-- Embeds `sqlx::migrate::Migration` as far as `migrate` reads it:
version, description, and checksum (a byte string, embedded as a list of
naturals). -/
structure Migration where
  version : ℤ
  description : String
  checksum : List ℕ
deriving DecidableEq, Repr

/-- An entry of the store's applied-migrations table, as returned by
`list_applied_migrations`. -/
structure AppliedMigration where
  version : ℤ
  checksum : List ℕ
deriving DecidableEq, Repr

/-- The lookup `applied_migrations.get(&migration.version)` against the
map built from `list_applied_migrations()` keyed by version. -/
def lookupApplied (applied : List AppliedMigration) (version : ℤ) :
    Option AppliedMigration :=
  applied.find? (fun m => m.version = version)

/-- The `for migration in migrations` loop of `migrate`, folding over the
migration list with the accumulated `new_migrations` (in reverse).
`connection.apply(&migration)` is a store-side effect assumed successful
(its elapsed-time result is dropped). -/
def migrateLoop (applied : List AppliedMigration) (ignore_checksum_mismatch : Bool) :
    List Migration → List Migration → Except String (List Migration)
  | [], new_migrations => .ok new_migrations.reverse
  | migration :: rest, new_migrations =>
    match lookupApplied applied migration.version with
    | some applied_migration =>
      if migration.checksum ≠ applied_migration.checksum && !ignore_checksum_mismatch then
        .error ("checksum mismatch for applied migration " ++ migration.description)
      else
        migrateLoop applied ignore_checksum_mismatch rest new_migrations
    | none =>
      migrateLoop applied ignore_checksum_mismatch rest (migration :: new_migrations)

/-- Embeds `Database::migrate`: checks each resolved migration against
the applied-migrations table, failing on a checksum mismatch unless
`ignore_checksum_mismatch`, applying (and returning) the migrations not
yet applied. Loading the migrations from disk and opening the connection
are external effects whose results are the `migrations` and `applied`
arguments. -/
def migrate (migrations : List Migration) (applied : List AppliedMigration)
    (ignore_checksum_mismatch : Bool) : Except String (List Migration) :=
  migrateLoop applied ignore_checksum_mismatch migrations []

/-! ## Helper lemmas -/

theorem countRunF_append (a b : List Event) :
    countRunF (a ++ b) = countRunF a + countRunF b :=
  List.countP_append _ _ _

/-- One-step unfolding of `transactionGo` on a returning attempt. -/
theorem transactionGo_done {T : Type} (env : Env T) (i : ℕ)
    (r : Except Error T) (evs : List Event)
    (h : transaction_attempt env i = (.done r, evs)) :
    transactionGo env i = (r, evs) := by
  unfold transactionGo
  split
  · next r' evs' h' =>
    rw [h] at h'
    injection h' with h1 h2
    injection h1 with h1
    rw [h1, h2]
  · next e' evs' h' =>
    rw [h] at h'
    injection h' with h1 h2
    cases h1

/-- One-step unfolding of `transactionGo` on a retrying attempt. -/
theorem transactionGo_retry {T : Type} (env : Env T) (i : ℕ)
    (e : Error) (evs : List Event) (p : Except Error T × List Event)
    (h : transaction_attempt env i = (.retry e, evs))
    (hp : transactionGo env (i + 1) = p) :
    transactionGo env i = (p.1, evs ++ p.2) := by
  unfold transactionGo
  split
  · next r' evs' h' =>
    rw [h] at h'
    injection h' with h1 h2
    cases h1
  · next e' evs' h' =>
    rw [h] at h'
    injection h' with h1 h2
    subst h2
    simp [hp]

/-- A serialization-conflict error as the store reports it: an execution
error with SQLSTATE 40001. -/
def serializationConflict : Error :=
  .database (.exec (.sqlxError (some "40001")))

theorem migrateLoop_ignore (applied : List AppliedMigration) :
    ∀ (migs acc : List Migration),
      migrateLoop applied true migs acc =
        .ok (acc.reverse ++
          migs.filter (fun m => (lookupApplied applied m.version).isNone)) := by
  intro migs
  induction migs with
  | nil => intro acc; simp [migrateLoop]
  | cons m rest ih =>
    intro acc
    unfold migrateLoop
    rcases hl : lookupApplied applied m.version with _ | am
    · simp [ih, List.filter_cons, hl]
    · simp [ih, List.filter_cons, hl]

theorem migrateLoop_mismatch (applied : List AppliedMigration)
    (m : Migration) (am : AppliedMigration)
    (hl : lookupApplied applied m.version = some am)
    (hc : m.checksum ≠ am.checksum) :
    ∀ (migs acc : List Migration), m ∈ migs →
      ∃ msg, migrateLoop applied false migs acc = .error msg := by
  intro migs
  induction migs with
  | nil => intro acc h; cases h
  | cons x rest ih =>
    intro acc hmem
    unfold migrateLoop
    rcases hlx : lookupApplied applied x.version with _ | ax
    · have hmx : m ≠ x := by
        rintro rfl
        rw [hl] at hlx
        cases hlx
      have hr : m ∈ rest := by
        rcases List.mem_cons.mp hmem with rfl | hr
        · exact absurd rfl hmx
        · exact hr
      simpa using ih (x :: acc) hr
    · by_cases hcx : x.checksum = ax.checksum
      · have hr : m ∈ rest := by
          rcases List.mem_cons.mp hmem with rfl | hr
          · rw [hl] at hlx
            injection hlx with h
            subst h
            exact absurd hcx hc
          · exact hr
        simpa [hcx] using ih acc hr
      · exact ⟨"checksum mismatch for applied migration " ++ x.description,
          by simp [hcx]⟩

/-! ## Claims -/

/-- C6: `is_serialization_error` classifies an error as a serialization
failure if and only if it is a database execution or query error whose
underlying driver-level error code is SQLSTATE "40001"; every other
error (non-database errors, database errors of other kinds, and database
errors with other or missing codes) is classified as not retryable. -/
theorem C6_serialization_classification (e : Error) :
    is_serialization_error e = true ↔
      (e = .database (.exec (.sqlxError (some SERIALIZATION_FAILURE_CODE))) ∨
       e = .database (.query (.sqlxError (some SERIALIZATION_FAILURE_CODE)))) := by
  rcases e with d | m | m
  · rcases d with r | r | m | m
    · rcases r with c | m <;> simp [is_serialization_error]
    · rcases r with c | m <;> simp [is_serialization_error]
    · simp [is_serialization_error]
    · simp [is_serialization_error]
  · simp [is_serialization_error]
  · simp [is_serialization_error]

/-- C4 counterexample: the source's backoff base-delay table `SLEEPS` is
not the spec's sequence "10, 20, 40, … 2560ms": it has a tenth entry,
5120ms, beyond the spec's final 2560ms. -/
theorem C4_counterexample :
    SLEEPS ≠ spec_base_delays ∧
    SLEEPS.getD 9 0 = 5120 ∧ spec_base_delays.getLast? = some 2560 := by
  refine ⟨?_, by norm_num [SLEEPS], by norm_num [spec_base_delays]⟩
  intro h
  have := congrArg List.length h
  norm_num [SLEEPS, spec_base_delays] at this

/-- C4 (amended): for every attempt index below the retry budget of 10,
the backoff delay equals `base_delay[attempt] × r` where `r` is the drawn
multiplier in [0.5, 2.0] and `base_delay` doubles each step starting at
10ms — the sequence 10, 20, 40, …, 2560, 5120ms (ten entries, ending at
5120ms, not 2560ms) — so the delay lies within [5·2^i, 20·2^i] ms. -/
theorem C4_amended_backoff (i : ℕ) (r : ℚ) (hi : i < SLEEPS.length)
    (hlo : 1/2 ≤ r) (hhi : r ≤ 2) :
    randomized_delay r i = 10 * 2 ^ i * r ∧
    5 * 2 ^ i ≤ randomized_delay r i ∧ randomized_delay r i ≤ 20 * 2 ^ i := by
  have hlen : SLEEPS.length = 10 := by norm_num [SLEEPS]
  rw [hlen] at hi
  interval_cases i <;>
    refine ⟨by norm_num [randomized_delay, SLEEPS], ?_, ?_⟩ <;>
    · norm_num [randomized_delay, SLEEPS]
      linarith

/-- C4 witness: the amended backoff law at attempt index 9, multiplier 1. -/
theorem C4_amended_backoff_witness :
    randomized_delay 1 9 = 10 * 2 ^ 9 * 1 ∧
    5 * 2 ^ 9 ≤ randomized_delay 1 9 ∧ randomized_delay 1 9 ≤ 20 * 2 ^ 9 :=
  C4_amended_backoff 9 1 (by norm_num [SLEEPS]) (by norm_num) (by norm_num)

/-- C10: the backoff rng is seeded with the constant 0 by
`Database::new`, so any two database instances produced by `new` draw
identical multiplier sequences under any deterministic generator `gen`
(the semantics of `StdRng::seed_from_u64`), and the randomized backoff
delay is the deterministic function `SLEEPS[i] * gen 0 n` of the attempt
index `i` and the number `n` of prior draws. -/
theorem C10_rng_determinism (gen : ℕ → ℕ → ℚ) (db₁ db₂ : Database)
    (h₁ : db₁ = Database.new) (h₂ : db₂ = Database.new) :
    (∀ n, multiplierSeq gen db₁ n = multiplierSeq gen db₂ n) ∧
    (∀ n i, randomized_delay (multiplierSeq gen db₁ n) i =
      SLEEPS.getD i 0 * gen 0 n) := by
  subst h₁
  subst h₂
  refine ⟨fun n => rfl, fun n i => ?_⟩
  simp [randomized_delay, multiplierSeq, Database.new]

/-- C10 witness: the determinism law at a concrete generator. -/
theorem C10_rng_determinism_witness :
    (∀ n, multiplierSeq (fun s n => (s : ℚ) + n) Database.new n =
      multiplierSeq (fun s n => (s : ℚ) + n) Database.new n) ∧
    (∀ n i, randomized_delay
        (multiplierSeq (fun s n => (s : ℚ) + n) Database.new n) i =
      SLEEPS.getD i 0 * ((fun s n => (s : ℚ) + n) 0 n)) :=
  C10_rng_determinism (fun s n => (s : ℚ) + n) Database.new Database.new rfl rfl

/-- C9: if some migration's version is already recorded as applied but
its checksum differs from the stored one, `migrate` fails with a
checksum-mismatch error when `ignore_checksum_mismatch` is false; with
the override flag set it succeeds, and the mismatched migration is not
re-applied (it is absent from the returned list of newly applied
migrations). -/
theorem C9_migration_checksum (migs : List Migration)
    (applied : List AppliedMigration) (m : Migration) (am : AppliedMigration)
    (hm : m ∈ migs) (hl : lookupApplied applied m.version = some am)
    (hc : m.checksum ≠ am.checksum) :
    (∃ msg, migrate migs applied false = .error msg) ∧
    (∃ res, migrate migs applied true = .ok res ∧ m ∉ res) := by
  constructor
  · exact migrateLoop_mismatch applied m am hl hc migs [] hm
  · refine ⟨_, migrateLoop_ignore applied migs [], ?_⟩
    intro hmem
    simp only [List.reverse_nil, List.nil_append, List.mem_filter] at hmem
    rw [hl] at hmem
    simp at hmem

/-- A migration and a conflicting applied-migrations table used as the
concrete instance for C9's witness. -/
def mismatchedMigration : Migration :=
  { version := 1, description := "create users", checksum := [1, 2, 3] }

/-- The applied record whose checksum disagrees with
`mismatchedMigration`. -/
def mismatchedApplied : AppliedMigration :=
  { version := 1, checksum := [9, 9, 9] }

/-- C9 witness: the checksum-mismatch law at a concrete one-migration
list. -/
theorem C9_migration_checksum_witness :
    (∃ msg, migrate [mismatchedMigration] [mismatchedApplied] false = .error msg) ∧
    (∃ res, migrate [mismatchedMigration] [mismatchedApplied] true = .ok res ∧
      mismatchedMigration ∉ res) :=
  C9_migration_checksum [mismatchedMigration] [mismatchedApplied]
    mismatchedMigration mismatchedApplied (by simp)
    (by simp [lookupApplied, mismatchedMigration, mismatchedApplied])
    (by simp [mismatchedMigration, mismatchedApplied])

/-- C8: if the unit of work retains the transaction handle beyond its
own return, the transaction orchestrator fails with the internal-use
error `txStillInUse` ("couldn't complete transaction because it's still
in use") rather than committing or rolling back, and that error is not
classified as retryable. -/
theorem C8_retained_handle {T : Type} (env : Env T)
    (hb : env.beginResult 0 = .ok ()) (hr : env.fRetains 0 = true) :
    transaction env =
      (.error txStillInUse, [.beginTx .serializable 0, .runF 0]) ∧
    is_serialization_error txStillInUse = false ∧
    (∀ i, Event.commitAttempt i ∉ (transaction env).2) ∧
    (∀ i, Event.rollback i ∉ (transaction env).2) := by
  have hatt : transaction_attempt env 0 =
      (.done (.error txStillInUse), [.beginTx .serializable 0, .runF 0]) := by
    simp [transaction_attempt, with_transaction, hb, hr]
  have htx : transaction env =
      (.error txStillInUse, [.beginTx .serializable 0, .runF 0]) := by
    rw [transaction, transactionGo_done env 0 _ _ hatt]
  refine ⟨htx, by simp [is_serialization_error, txStillInUse], ?_, ?_⟩ <;>
    · intro i
      rw [htx]
      simp

/-- An environment whose unit of work keeps a clone of the transaction
handle alive after returning. -/
def envRetain : Env Unit :=
  { beginResult := fun _ => .ok (), fRetains := fun _ => true,
    fResult := fun _ => .ok (), commitResult := fun _ => .ok (),
    rollbackResult := fun _ => .ok () }

/-- C8 witness: the retained-handle law at the concrete environment
`envRetain`. -/
theorem C8_retained_handle_witness :
    transaction envRetain =
      (.error txStillInUse, [.beginTx .serializable 0, .runF 0]) ∧
    is_serialization_error txStillInUse = false ∧
    (∀ i, Event.commitAttempt i ∉ (transaction envRetain).2) ∧
    (∀ i, Event.rollback i ∉ (transaction envRetain).2) :=
  C8_retained_handle envRetain rfl rfl

/-- C7: `weak_transaction` opens its transaction at Read-Committed
isolation and never retries: the unit of work runs exactly once (never
more), no backoff sleep ever occurs, and a single failure of either the
unit of work (serialization-conflict or not) or the commit is surfaced
immediately to the caller. -/
theorem C7_weak_transaction {T : Type} (env : Env T) :
    countRunF (weak_transaction env).2 ≤ 1 ∧
    (∀ i, Event.sleep i ∉ (weak_transaction env).2) ∧
    (env.beginResult 0 = .ok () →
      Event.beginTx .readCommitted 0 ∈ (weak_transaction env).2 ∧
      countRunF (weak_transaction env).2 = 1) ∧
    (∀ e, env.beginResult 0 = .ok () → env.fRetains 0 = false →
      env.fResult 0 = .error e → env.rollbackResult 0 = .ok () →
      (weak_transaction env).1 = .error e) ∧
    (∀ x e, env.beginResult 0 = .ok () → env.fRetains 0 = false →
      env.fResult 0 = .ok x → env.commitResult 0 = .error e →
      (weak_transaction env).1 = .error e) := by
  refine ⟨?_, ?_, ?_, ?_, ?_⟩
  · unfold weak_transaction with_transaction
    rcases env.beginResult 0 with eb | u
    · simp [countRunF]
    · rcases env.fRetains 0 with _ | _
      · rcases env.fResult 0 with e0 | x0
        · rcases env.rollbackResult 0 with e2 | u2 <;> simp [countRunF]
        · rcases env.commitResult 0 with ec | uc <;> simp [countRunF]
      · simp [countRunF]
  · intro i
    unfold weak_transaction with_transaction
    rcases env.beginResult 0 with eb | u
    · simp
    · rcases env.fRetains 0 with _ | _
      · rcases env.fResult 0 with e0 | x0
        · rcases env.rollbackResult 0 with e2 | u2 <;> simp
        · rcases env.commitResult 0 with ec | uc <;> simp
      · simp
  · intro hb
    unfold weak_transaction with_transaction
    rw [hb]
    rcases env.fRetains 0 with _ | _
    · rcases env.fResult 0 with e0 | x0
      · rcases env.rollbackResult 0 with e2 | u2 <;> simp [countRunF]
      · rcases env.commitResult 0 with ec | uc <;> simp [countRunF]
    · simp [countRunF]
  · intro e hb hr hf hrb
    simp [weak_transaction, with_transaction, hb, hr, hf, hrb]
  · intro x e hb hr hf hc
    simp [weak_transaction, with_transaction, hb, hr, hf, hc]

/-- An environment whose unit of work fails with a serialization
conflict on every attempt (and everything store-side succeeds). -/
def envSerFail : Env Unit :=
  { beginResult := fun _ => .ok (), fRetains := fun _ => false,
    fResult := fun _ => .error serializationConflict,
    commitResult := fun _ => .ok (), rollbackResult := fun _ => .ok () }

/-- C7 witness: the weak-transaction law at the concrete environment
`envSerFail`, whose single attempt hits a serialization conflict. -/
theorem C7_weak_transaction_witness :
    countRunF (weak_transaction envSerFail).2 ≤ 1 ∧
    (∀ i, Event.sleep i ∉ (weak_transaction envSerFail).2) ∧
    (envSerFail.beginResult 0 = .ok () →
      Event.beginTx .readCommitted 0 ∈ (weak_transaction envSerFail).2 ∧
      countRunF (weak_transaction envSerFail).2 = 1) ∧
    (∀ e, envSerFail.beginResult 0 = .ok () → envSerFail.fRetains 0 = false →
      envSerFail.fResult 0 = .error e → envSerFail.rollbackResult 0 = .ok () →
      (weak_transaction envSerFail).1 = .error e) ∧
    (∀ x e, envSerFail.beginResult 0 = .ok () → envSerFail.fRetains 0 = false →
      envSerFail.fResult 0 = .ok x → envSerFail.commitResult 0 = .error e →
      (weak_transaction envSerFail).1 = .error e) :=
  C7_weak_transaction envSerFail

/-- C2: in every orchestrator variant, an attempt whose unit of work
returns an error never commits that attempt's transaction: no commit is
invoked in the attempt, and rollback is invoked before the error is
either retried (the backoff sleep) or returned. -/
theorem C2_error_rolls_back {T : Type} (env : Env T)
    (envO : Env (Option (ℕ × T))) (i rid pid : ℕ) (orid : Option ℕ) (e : Error)
    (hb : env.beginResult i = .ok ()) (hr : env.fRetains i = false)
    (hf : env.fResult i = .error e)
    (hbO : envO.beginResult i = .ok ()) (hrO : envO.fRetains i = false)
    (hfO : envO.fResult i = .error e) :
    (Event.rollback i ∈ (transaction_attempt env i).2 ∧
      Event.commitAttempt i ∉ (transaction_attempt env i).2 ∧
      idxOf (Event.rollback i) (transaction_attempt env i).2 <
        idxOf (Event.sleep i) (transaction_attempt env i).2) ∧
    (Event.rollback i ∈ (room_attempt env rid i).2 ∧
      Event.commitAttempt i ∉ (room_attempt env rid i).2) ∧
    (Event.rollback i ∈ (project_attempt env pid orid i).2 ∧
      Event.commitAttempt i ∉ (project_attempt env pid orid i).2) ∧
    (Event.rollback i ∈ (optional_room_attempt envO i).2 ∧
      Event.commitAttempt i ∉ (optional_room_attempt envO i).2) ∧
    (i = 0 → Event.rollback 0 ∈ (weak_transaction env).2 ∧
      Event.commitAttempt 0 ∉ (weak_transaction env).2) := by
  refine ⟨?_, ?_, ?_, ?_, ?_⟩
  · rcases hrb : env.rollbackResult i with e2 | u2
    · simp [transaction_attempt, with_transaction, hb, hr, hf, hrb, idxOf]
    · simp [transaction_attempt, with_transaction, hb, hr, hf, hrb]
      split <;> simp [idxOf]
  · rcases hrb : env.rollbackResult i with e2 | u2
    · simp [room_attempt, with_transaction, hb, hr, hf, hrb]
    · simp [room_attempt, with_transaction, hb, hr, hf, hrb]
      split <;> simp
  · rcases hrb : env.rollbackResult i with e2 | u2
    · simp [project_attempt, with_transaction, hb, hr, hf, hrb]
    · simp [project_attempt, with_transaction, hb, hr, hf, hrb]
      split <;> simp
  · rcases hrb : envO.rollbackResult i with e2 | u2
    · simp [optional_room_attempt, with_transaction, hbO, hrO, hfO, hrb]
    · simp [optional_room_attempt, with_transaction, hbO, hrO, hfO, hrb]
      split <;> simp
  · rintro rfl
    rcases hrb : env.rollbackResult 0 with e2 | u2 <;>
      simp [weak_transaction, with_transaction, hb, hr, hf, hrb]

/-- An optional-room environment whose unit of work fails with a
serialization conflict on every attempt. -/
def envSerFailOpt : Env (Option (ℕ × Unit)) :=
  { beginResult := fun _ => .ok (), fRetains := fun _ => false,
    fResult := fun _ => .error serializationConflict,
    commitResult := fun _ => .ok (), rollbackResult := fun _ => .ok () }

/-- C2 witness: the rollback-on-error law at attempt 0 of the concrete
environments `envSerFail` and `envSerFailOpt`. -/
theorem C2_error_rolls_back_witness :
    (Event.rollback 0 ∈ (transaction_attempt envSerFail 0).2 ∧
      Event.commitAttempt 0 ∉ (transaction_attempt envSerFail 0).2 ∧
      idxOf (Event.rollback 0) (transaction_attempt envSerFail 0).2 <
        idxOf (Event.sleep 0) (transaction_attempt envSerFail 0).2) ∧
    (Event.rollback 0 ∈ (room_attempt envSerFail 5 0).2 ∧
      Event.commitAttempt 0 ∉ (room_attempt envSerFail 5 0).2) ∧
    (Event.rollback 0 ∈ (project_attempt envSerFail 7 none 0).2 ∧
      Event.commitAttempt 0 ∉ (project_attempt envSerFail 7 none 0).2) ∧
    (Event.rollback 0 ∈ (optional_room_attempt envSerFailOpt 0).2 ∧
      Event.commitAttempt 0 ∉ (optional_room_attempt envSerFailOpt 0).2) ∧
    ((0 : ℕ) = 0 → Event.rollback 0 ∈ (weak_transaction envSerFail).2 ∧
      Event.commitAttempt 0 ∉ (weak_transaction envSerFail).2) :=
  C2_error_rolls_back envSerFail envSerFailOpt 0 5 7 none
    serializationConflict rfl rfl rfl rfl rfl rfl

/-- Behaviour of `transactionGo` when every attempt fails with the same
serialization-conflict error: counting down `d = SLEEPS.length - i`, the
loop surfaces the error after `d + 1` further invocations of `f`. -/
theorem transactionGo_allSerFail {T : Type} (env : Env T) (e : Error)
    (hser : is_serialization_error e = true)
    (hb : ∀ j, env.beginResult j = .ok ())
    (hr : ∀ j, env.fRetains j = false)
    (hf : ∀ j, env.fResult j = .error e)
    (hrb : ∀ j, env.rollbackResult j = .ok ()) :
    ∀ d i, i + d = SLEEPS.length →
      (transactionGo env i).1 = .error e ∧
      countRunF (transactionGo env i).2 = d + 1 := by
  have hatt : ∀ j, j < SLEEPS.length →
      transaction_attempt env j =
        (.retry e, [.beginTx .serializable j, .runF j, .rollback j, .sleep j]) := by
    intro j hj
    simp [transaction_attempt, with_transaction, hb j, hr j, hf j, hrb j,
      retry_on_serialization_error, hser, hj]
  have hattEnd : transaction_attempt env SLEEPS.length =
      (.done (.error e),
        [.beginTx .serializable SLEEPS.length, .runF SLEEPS.length,
         .rollback SLEEPS.length]) := by
    simp [transaction_attempt, with_transaction, hb _, hr _, hf _, hrb _,
      retry_on_serialization_error, hser]
  intro d
  induction d with
  | zero =>
    intro i hi
    have hiN : i = SLEEPS.length := by omega
    subst hiN
    rw [transactionGo_done env _ _ _ hattEnd]
    simp [countRunF]
  | succ d ih =>
    intro i hi
    have hlt : i < SLEEPS.length := by omega
    have hrec := ih (i + 1) (by omega)
    rw [transactionGo_retry env i e _ _ (hatt i hlt) rfl]
    refine ⟨by simpa using hrec.1, ?_⟩
    have h1 : countRunF [Event.beginTx Isolation.serializable i, Event.runF i,
        Event.rollback i, Event.sleep i] = 1 := by simp [countRunF]
    have h2 : countRunF ([Event.beginTx Isolation.serializable i, Event.runF i,
        Event.rollback i, Event.sleep i] ++ (transactionGo env (i + 1)).2) =
        d + 1 + 1 := by
      rw [countRunF_append, h1, hrec.2]
      omega
    exact h2

/-- C3 (amended): if every attempt fails with a serialization-conflict
error, the retrying transaction surfaces that error — it does not loop
forever — after exhausting the backoff budget of 10 retries, which means
11 invocations of the unit of work in total (an initial attempt plus one
retry per `SLEEPS` entry), not 10. -/
theorem C3_amended_budget_exhaustion {T : Type} (env : Env T) (e : Error)
    (hser : is_serialization_error e = true)
    (hb : ∀ j, env.beginResult j = .ok ())
    (hr : ∀ j, env.fRetains j = false)
    (hf : ∀ j, env.fResult j = .error e)
    (hrb : ∀ j, env.rollbackResult j = .ok ()) :
    (transaction env).1 = .error e ∧ countRunF (transaction env).2 = 11 := by
  have h := transactionGo_allSerFail env e hser hb hr hf hrb SLEEPS.length 0
    (by omega)
  simpa [transaction, SLEEPS] using h

/-- C3 (amended) witness: budget exhaustion at the concrete environment
`envSerFail`. -/
theorem C3_amended_budget_exhaustion_witness :
    (transaction envSerFail).1 = .error serializationConflict ∧
    countRunF (transaction envSerFail).2 = 11 :=
  C3_amended_budget_exhaustion envSerFail serializationConflict rfl
    (fun _ => rfl) (fun _ => rfl) (fun _ => rfl) (fun _ => rfl)

/-- An environment that fails with a serialization conflict on exactly
the first ten attempts (indices 0–9) and succeeds from the eleventh on. -/
def envTenSerFail : Env Unit :=
  { beginResult := fun _ => .ok (), fRetains := fun _ => false,
    fResult := fun j => if j < 10 then .error serializationConflict else .ok (),
    commitResult := fun _ => .ok (), rollbackResult := fun _ => .ok () }

/-- C3 counterexample: with a serialization-conflict error forced on all
of the first 10 attempts, the retrying transaction does *not* return the
error — it makes an eleventh attempt and returns its successful result,
having invoked the unit of work 11 times. -/
theorem C3_counterexample :
    (transaction envTenSerFail).1 = .ok () ∧
    countRunF (transaction envTenSerFail).2 = 11 := by
  constructor <;>
    simp [transaction, transactionGo, transaction_attempt, with_transaction,
      envTenSerFail, serializationConflict, retry_on_serialization_error,
      is_serialization_error, SERIALIZATION_FAILURE_CODE, SLEEPS, countRunF]

/-- Behaviour of `transactionGo` when attempts below `N` fail with a
serialization-conflict error and attempt `N` succeeds (unit of work and
commit): counting down `d = N - i`, the loop returns the success after
`d + 1` further invocations of `f`. -/
theorem transactionGo_successAfter {T : Type} (env : Env T) (e : Error)
    (N : ℕ) (x : T) (hN : N < 10)
    (hser : is_serialization_error e = true)
    (hb : ∀ j, env.beginResult j = .ok ())
    (hr : ∀ j, env.fRetains j = false)
    (hf : ∀ j, j < N → env.fResult j = .error e)
    (hrb : ∀ j, env.rollbackResult j = .ok ())
    (hfN : env.fResult N = .ok x) (hcN : env.commitResult N = .ok ()) :
    ∀ d i, i + d = N →
      (transactionGo env i).1 = .ok x ∧
      countRunF (transactionGo env i).2 = d + 1 := by
  have hattN : transaction_attempt env N =
      (.done (.ok x),
        [.beginTx .serializable N, .runF N, .commitAttempt N, .commitOk N]) := by
    simp [transaction_attempt, with_transaction, hb N, hr N, hfN, hcN]
  have hatt : ∀ j, j < N →
      transaction_attempt env j =
        (.retry e, [.beginTx .serializable j, .runF j, .rollback j, .sleep j]) := by
    intro j hj
    have hjS : j < SLEEPS.length := by
      have : SLEEPS.length = 10 := by norm_num [SLEEPS]
      omega
    simp [transaction_attempt, with_transaction, hb j, hr j, hf j hj, hrb j,
      retry_on_serialization_error, hser, hjS]
  intro d
  induction d with
  | zero =>
    intro i hi
    have hiN : i = N := by omega
    subst hiN
    rw [transactionGo_done env _ _ _ hattN]
    simp [countRunF]
  | succ d ih =>
    intro i hi
    have hlt : i < N := by omega
    have hrec := ih (i + 1) (by omega)
    rw [transactionGo_retry env i e _ _ (hatt i hlt) rfl]
    refine ⟨by simpa using hrec.1, ?_⟩
    have h1 : countRunF [Event.beginTx Isolation.serializable i, Event.runF i,
        Event.rollback i, Event.sleep i] = 1 := by simp [countRunF]
    have h2 : countRunF ([Event.beginTx Isolation.serializable i, Event.runF i,
        Event.rollback i, Event.sleep i] ++ (transactionGo env (i + 1)).2) =
        d + 1 + 1 := by
      rw [countRunF_append, h1, hrec.2]
      omega
    exact h2

/-- C5: for every N < 10, if the attempts fail with a
serialization-conflict error on the first N attempts and the unit of
work and commit succeed on attempt N+1, the retrying transaction returns
the successful result, having invoked the unit of work exactly N+1
times. -/
theorem C5_success_after_retries {T : Type} (env : Env T) (e : Error)
    (N : ℕ) (x : T) (hN : N < 10)
    (hser : is_serialization_error e = true)
    (hb : ∀ j, env.beginResult j = .ok ())
    (hr : ∀ j, env.fRetains j = false)
    (hf : ∀ j, j < N → env.fResult j = .error e)
    (hrb : ∀ j, env.rollbackResult j = .ok ())
    (hfN : env.fResult N = .ok x) (hcN : env.commitResult N = .ok ()) :
    (transaction env).1 = .ok x ∧ countRunF (transaction env).2 = N + 1 := by
  have h := transactionGo_successAfter env e N x hN hser hb hr hf hrb hfN hcN
    N 0 (by omega)
  simpa [transaction] using h

/-- An environment that fails with a serialization conflict on the first
three attempts and succeeds from the fourth on. -/
def envThreeSerFail : Env Unit :=
  { beginResult := fun _ => .ok (), fRetains := fun _ => false,
    fResult := fun j => if j < 3 then .error serializationConflict else .ok (),
    commitResult := fun _ => .ok (), rollbackResult := fun _ => .ok () }

/-- C5 witness: success on attempt 4 after three serialization
conflicts. -/
theorem C5_success_after_retries_witness :
    (transaction envThreeSerFail).1 = .ok () ∧
    countRunF (transaction envThreeSerFail).2 = 3 + 1 :=
  C5_success_after_retries envThreeSerFail serializationConflict 3 ()
    (by norm_num) rfl (fun _ => rfl) (fun _ => rfl)
    (fun j hj => by simp [envThreeSerFail, hj]) (fun _ => rfl)
    (by simp [envThreeSerFail]) rfl

/-- The all-success environment: `f` and the store succeed on every
attempt. -/
def envAllOk : Env Unit :=
  { beginResult := fun _ => .ok (), fRetains := fun _ => false,
    fResult := fun _ => .ok (), commitResult := fun _ => .ok (),
    rollbackResult := fun _ => .ok () }

/-- An optional-room environment whose unit of work resolves room 5 and
succeeds on every attempt. -/
def envOptRoom5 : Env (Option (ℕ × Unit)) :=
  { beginResult := fun _ => .ok (), fRetains := fun _ => false,
    fResult := fun _ => .ok (some (5, ())), commitResult := fun _ => .ok (),
    rollbackResult := fun _ => .ok () }

/-- C1 counterexample: in `room_transaction` the room lock is acquired
*before* the unit of work runs, not after it: on an all-success run of
`room_transaction` for room 5 the trace is lock acquisition first, then
begin, then `f`, then commit — so it is false that `f` runs before the
lock is acquired. -/
theorem C1_counterexample :
    (room_transaction envAllOk 5).2 =
      [.acquireLock (.room 5) 0, .beginTx .serializable 0, .runF 0,
       .commitAttempt 0, .commitOk 0] ∧
    ¬ idxOf (Event.runF 0) (room_transaction envAllOk 5).2 <
        idxOf (Event.acquireLock (.room 5) 0) (room_transaction envAllOk 5).2 := by
  have h : (room_transaction envAllOk 5).2 =
      [.acquireLock (.room 5) 0, .beginTx .serializable 0, .runF 0,
       .commitAttempt 0, .commitOk 0] := by
    simp [room_transaction, room_transactionGo, room_attempt, with_transaction,
      envAllOk]
  refine ⟨h, ?_⟩
  rw [h]
  decide

/-- C1 (amended): in `room_transaction` and `project_transaction` the
entity lock is acquired at the *start* of each attempt — before the unit
of work runs — and is recorded in the returned guard; only in
`optional_room_transaction` is the lock acquired after the unit of work
and before that attempt's commit, and there too the returned guard holds
the acquired room lock. -/
theorem C1_amended_lock_order {T : Type} (env : Env T)
    (envO : Env (Option (ℕ × T))) (rid pid i : ℕ) (orid : Option ℕ) :
    (room_attempt env rid i).2.head? = some (.acquireLock (.room rid) i) ∧
    (∀ g, (room_attempt env rid i).1 = .done (.ok g) →
      g.heldLock = .room rid) ∧
    (project_attempt env pid orid i).2.head? =
      some (.acquireLock (projectLock pid orid) i) ∧
    (∀ g, (project_attempt env pid orid i).1 = .done (.ok g) →
      g.heldLock = projectLock pid orid) ∧
    (∀ r, Event.acquireLock (.room r) i ∈ (optional_room_attempt envO i).2 →
      idxOf (Event.runF i) (optional_room_attempt envO i).2 <
        idxOf (Event.acquireLock (.room r) i) (optional_room_attempt envO i).2 ∧
      idxOf (Event.acquireLock (.room r) i) (optional_room_attempt envO i).2 <
        idxOf (Event.commitAttempt i) (optional_room_attempt envO i).2) ∧
    (∀ g, (optional_room_attempt envO i).1 = .done (.ok (some g)) →
      Event.acquireLock g.heldLock i ∈ (optional_room_attempt envO i).2) := by
  refine ⟨?_, ?_, ?_, ?_, ?_, ?_⟩
  · rcases hb : env.beginResult i with eb | u
    · simp [room_attempt, with_transaction, hb]
    · rcases hr : env.fRetains i with _ | _
      · rcases hf : env.fResult i with e0 | x0
        · rcases hrb : env.rollbackResult i with e2 | u2
          · simp [room_attempt, with_transaction, hb, hr, hf, hrb]
          · rcases hre : retry_on_serialization_error e0 i with _ | _ <;>
              simp [room_attempt, with_transaction, hb, hr, hf, hrb, hre]
        · rcases hc : env.commitResult i with ec | uc
          · rcases hre : retry_on_serialization_error ec i with _ | _ <;>
              simp [room_attempt, with_transaction, hb, hr, hf, hc, hre]
          · simp [room_attempt, with_transaction, hb, hr, hf, hc]
      · simp [room_attempt, with_transaction, hb, hr]
  · intro g
    rcases hb : env.beginResult i with eb | u
    · intro hg
      simp [room_attempt, with_transaction, hb] at hg
    · rcases hr : env.fRetains i with _ | _
      · rcases hf : env.fResult i with e0 | x0
        · rcases hrb : env.rollbackResult i with e2 | u2
          · intro hg
            simp [room_attempt, with_transaction, hb, hr, hf, hrb] at hg
          · rcases hre : retry_on_serialization_error e0 i with _ | _ <;>
              intro hg <;>
              simp [room_attempt, with_transaction, hb, hr, hf, hrb, hre] at hg
        · rcases hc : env.commitResult i with ec | uc
          · rcases hre : retry_on_serialization_error ec i with _ | _ <;>
              intro hg <;>
              simp [room_attempt, with_transaction, hb, hr, hf, hc, hre] at hg
          · intro hg
            simp [room_attempt, with_transaction, hb, hr, hf, hc] at hg
            subst hg
            rfl
      · intro hg
        simp [room_attempt, with_transaction, hb, hr] at hg
  · rcases hb : env.beginResult i with eb | u
    · simp [project_attempt, with_transaction, hb]
    · rcases hr : env.fRetains i with _ | _
      · rcases hf : env.fResult i with e0 | x0
        · rcases hrb : env.rollbackResult i with e2 | u2
          · simp [project_attempt, with_transaction, hb, hr, hf, hrb]
          · rcases hre : retry_on_serialization_error e0 i with _ | _ <;>
              simp [project_attempt, with_transaction, hb, hr, hf, hrb, hre]
        · rcases hc : env.commitResult i with ec | uc
          · rcases hre : retry_on_serialization_error ec i with _ | _ <;>
              simp [project_attempt, with_transaction, hb, hr, hf, hc, hre]
          · simp [project_attempt, with_transaction, hb, hr, hf, hc]
      · simp [project_attempt, with_transaction, hb, hr]
  · intro g
    rcases hb : env.beginResult i with eb | u
    · intro hg
      simp [project_attempt, with_transaction, hb] at hg
    · rcases hr : env.fRetains i with _ | _
      · rcases hf : env.fResult i with e0 | x0
        · rcases hrb : env.rollbackResult i with e2 | u2
          · intro hg
            simp [project_attempt, with_transaction, hb, hr, hf, hrb] at hg
          · rcases hre : retry_on_serialization_error e0 i with _ | _ <;>
              intro hg <;>
              simp [project_attempt, with_transaction, hb, hr, hf, hrb, hre] at hg
        · rcases hc : env.commitResult i with ec | uc
          · rcases hre : retry_on_serialization_error ec i with _ | _ <;>
              intro hg <;>
              simp [project_attempt, with_transaction, hb, hr, hf, hc, hre] at hg
          · intro hg
            simp [project_attempt, with_transaction, hb, hr, hf, hc] at hg
            subst hg
            rfl
      · intro hg
        simp [project_attempt, with_transaction, hb, hr] at hg
  · intro r
    rcases hb : envO.beginResult i with eb | u
    · intro hmem
      simp [optional_room_attempt, with_transaction, hb] at hmem
    · rcases hr : envO.fRetains i with _ | _
      · rcases hf : envO.fResult i with e0 | x0
        · rcases hrb : envO.rollbackResult i with e2 | u2
          · intro hmem
            simp [optional_room_attempt, with_transaction, hb, hr, hf, hrb] at hmem
          · rcases hre : retry_on_serialization_error e0 i with _ | _ <;>
              intro hmem <;>
              simp [optional_room_attempt, with_transaction,
                hb, hr, hf, hrb, hre] at hmem
        · rcases x0 with _ | ⟨r0, data⟩
          · rcases hc : envO.commitResult i with ec | uc
            · rcases hre : retry_on_serialization_error ec i with _ | _ <;>
                intro hmem <;>
                simp [optional_room_attempt, with_transaction,
                  hb, hr, hf, hc, hre] at hmem
            · intro hmem
              simp [optional_room_attempt, with_transaction, hb, hr, hf, hc] at hmem
          · rcases hc : envO.commitResult i with ec | uc
            · rcases hre : retry_on_serialization_error ec i with _ | _ <;>
                intro hmem <;>
                simp [optional_room_attempt, with_transaction,
                  hb, hr, hf, hc, hre] at hmem <;>
                subst hmem <;>
                simp [optional_room_attempt, with_transaction,
                  hb, hr, hf, hc, hre, idxOf]
            · intro hmem
              simp [optional_room_attempt, with_transaction, hb, hr, hf, hc] at hmem
              subst hmem
              simp [optional_room_attempt, with_transaction, hb, hr, hf, hc, idxOf]
      · intro hmem
        simp [optional_room_attempt, with_transaction, hb, hr] at hmem
  · intro g
    rcases hb : envO.beginResult i with eb | u
    · intro hg
      simp [optional_room_attempt, with_transaction, hb] at hg
    · rcases hr : envO.fRetains i with _ | _
      · rcases hf : envO.fResult i with e0 | x0
        · rcases hrb : envO.rollbackResult i with e2 | u2
          · intro hg
            simp [optional_room_attempt, with_transaction, hb, hr, hf, hrb] at hg
          · rcases hre : retry_on_serialization_error e0 i with _ | _ <;>
              intro hg <;>
              simp [optional_room_attempt, with_transaction,
                hb, hr, hf, hrb, hre] at hg
        · rcases x0 with _ | ⟨r0, data⟩
          · rcases hc : envO.commitResult i with ec | uc
            · rcases hre : retry_on_serialization_error ec i with _ | _ <;>
                intro hg <;>
                simp [optional_room_attempt, with_transaction,
                  hb, hr, hf, hc, hre] at hg
            · intro hg
              simp [optional_room_attempt, with_transaction, hb, hr, hf, hc] at hg
          · rcases hc : envO.commitResult i with ec | uc
            · rcases hre : retry_on_serialization_error ec i with _ | _ <;>
                intro hg <;>
                simp [optional_room_attempt, with_transaction,
                  hb, hr, hf, hc, hre] at hg
            · intro hg
              simp [optional_room_attempt, with_transaction, hb, hr, hf, hc] at hg
              subst hg
              simp [optional_room_attempt, with_transaction, hb, hr, hf, hc]
      · intro hg
        simp [optional_room_attempt, with_transaction, hb, hr] at hg

/-- C1 (amended) witness: the per-attempt lock-ordering law at the
concrete environments `envAllOk` and `envOptRoom5`, attempt 0, room 5,
project 7 with no owning room. -/
theorem C1_amended_lock_order_witness :
    (room_attempt envAllOk 5 0).2.head? = some (.acquireLock (.room 5) 0) ∧
    (∀ g, (room_attempt envAllOk 5 0).1 = .done (.ok g) →
      g.heldLock = .room 5) ∧
    (project_attempt envAllOk 7 none 0).2.head? =
      some (.acquireLock (projectLock 7 none) 0) ∧
    (∀ g, (project_attempt envAllOk 7 none 0).1 = .done (.ok g) →
      g.heldLock = projectLock 7 none) ∧
    (∀ r, Event.acquireLock (.room r) 0 ∈ (optional_room_attempt envOptRoom5 0).2 →
      idxOf (Event.runF 0) (optional_room_attempt envOptRoom5 0).2 <
        idxOf (Event.acquireLock (.room r) 0) (optional_room_attempt envOptRoom5 0).2 ∧
      idxOf (Event.acquireLock (.room r) 0) (optional_room_attempt envOptRoom5 0).2 <
        idxOf (Event.commitAttempt 0) (optional_room_attempt envOptRoom5 0).2) ∧
    (∀ g, (optional_room_attempt envOptRoom5 0).1 = .done (.ok (some g)) →
      Event.acquireLock g.heldLock 0 ∈ (optional_room_attempt envOptRoom5 0).2) :=
  C1_amended_lock_order envAllOk envOptRoom5 5 7 0 none

end Db
